import Mathlib

/-!
Shallow embedding of `src/backend/fetch_orders.py` and `src/backend/main.py`
(news.fasttakeoff.org).

JSON values are modelled by the inductive `Json`; Python `None` and JSON
`null` are identified as `Json.null` (this is exact for data obtained from
`json.load`, and `dict.get` on a missing key also yields `None`).  Python
truthiness of JSON-shaped values is `Json.truthy`.  HTTP interactions are
modelled by oracle arguments: a function giving the remote response per
page for the listing loop, a response per document for the detail fetch,
and an `Except String String` (error message or completion text) for the
external summarization call.
-/

/-- A JSON value as produced by `json.load` / `response.json()`.
Numbers are modelled as integers (no claim depends on numeric values). -/
inductive Json where
  | null : Json
  | bool (b : Bool) : Json
  | num (n : Int) : Json
  | str (s : String) : Json
  | arr (xs : List Json) : Json
  | obj (fields : List (String × Json)) : Json

/-- Python truthiness of a JSON-shaped value: `None`, `False`, `0`, `""`,
`[]` and `{}` are falsy, everything else truthy. -/
def Json.truthy : Json → Bool
  | .null => false
  | .bool b => b
  | .num n => n != 0
  | .str s => !s.isEmpty
  | .arr xs => !xs.isEmpty
  | .obj fs => !fs.isEmpty

/-- Dictionary lookup, `d.get(k)` returning `none` when the key is absent
(first binding wins, as in a Python dict there are no duplicate keys). -/
def jlookup : List (String × Json) → String → Option Json
  | [], _ => none
  | (k, v) :: rest, key => if k = key then some v else jlookup rest key

/-- Python `d.get(k, default)`: the stored value (JSON `null` stays `null`)
when the key is present, else the default. -/
def jget (d : List (String × Json)) (k : String) (default : Json) : Json :=
  (jlookup d k).getD default

/-- Python `a or b` on JSON-shaped values: `a` when truthy, else `b`. -/
def pyOr (a b : Json) : Json :=
  if a.truthy then a else b

/-- An HTTP response from the remote Federal Register API, as seen by the
collector: the status code and the parsed JSON body. -/
structure RemoteResponse where
  status : Nat
  body : Json

/-- The listing response for one page, reduced to what the loop inspects:
the status code and the body's `results` entry (`none` when the key is
absent or `null`; per the remote contract it is an array when present). -/
structure ListingResponse where
  status : Nat
  results : Option (List Json)

/-- Truthiness of `response.json().get("results")`. -/
def resultsTruthy : Option (List Json) → Bool
  | none => false
  | some xs => !xs.isEmpty

/-- The loop's break condition:
`response.status_code != 200 or not response.json().get("results")`. -/
def stopsAt (r : ListingResponse) : Bool :=
  r.status != 200 || !resultsTruthy r.results

/-- The `while True` pagination loop of `fetch_all_orders`, with explicit
fuel for the unbounded loop: `none` means the fuel ran out before the loop
broke.  `resp p` is the remote response for page `p` (pages are 1-indexed
in the source). -/
def fetchAllOrdersAux (resp : Nat → ListingResponse) :
    Nat → Nat → List Json → Option (List Json)
  | 0, _, _ => none
  | fuel + 1, page, acc =>
    let r := resp page
    if stopsAt r then some acc
    else fetchAllOrdersAux resp fuel (page + 1) (acc ++ (r.results.getD []))

/-- `fetch_all_orders`: starts at page 1 with an empty accumulator. -/
def fetch_all_orders (resp : Nat → ListingResponse) (fuel : Nat) :
    Option (List Json) :=
  fetchAllOrdersAux resp fuel 1 []

/-- `fetch_details`: returns the parsed body on a 200 status and the empty
object `{}` on any other status (no exception is raised). -/
def fetch_details (r : RemoteResponse) : Json :=
  if r.status = 200 then r.body else Json.obj []

/-- The `raw_text` selection line of `save_orders`:
`details.get("full_text_xml") or details.get("body_html") or order.get("abstract", "")`.
`details` and `order` are the detail and listing dictionaries. -/
def chooseRawText (details order : List (String × Json)) : Json :=
  pyOr (jget details "full_text_xml" Json.null)
    (pyOr (jget details "body_html" Json.null) (jget order "abstract" (Json.str "")))

/-- The `metadata` sub-dictionary of an Order Record. -/
structure Metadata where
  saved_at : String
  summarized : Bool

/-- One Order Record as built by `save_orders` and stored in the shared
JSON file.  All five keys are always present in records produced by this
codebase, so they are structure fields; `raw_text` and `summary` keep the
full range of JSON values (`summary` is `null` until summarization). -/
structure OrderRecord where
  data : List (String × Json)
  content : Json
  raw_text : Json
  summary : Json
  metadata : Metadata

/-- Serialization of an Order Record back to a JSON value, with the key
order used by `save_orders`. -/
def OrderRecord.toJson (o : OrderRecord) : Json :=
  Json.obj
    [ ("data", Json.obj o.data)
    , ("content", o.content)
    , ("raw_text", o.raw_text)
    , ("summary", o.summary)
    , ("metadata", Json.obj
        [ ("saved_at", Json.str o.metadata.saved_at)
        , ("summarized", Json.bool o.metadata.summarized) ]) ]

/-- The record `save_orders` appends for one listing item `order`, given
the detail response for its document number and the current timestamp.
`none` models the `KeyError` raised by `order["document_number"]` when the
listing item lacks the key (which aborts the whole run). -/
def buildRecord (detail : Json → RemoteResponse) (now : String)
    (order : List (String × Json)) : Option OrderRecord :=
  match jlookup order "document_number" with
  | none => none
  | some _dn =>
    let details := fetch_details (detail (jget order "document_number" Json.null))
    let detailFields : List (String × Json) :=
      match details with
      | Json.obj fs => fs
      | _ => []
    some
      { data := order
      , content := details
      , raw_text := chooseRawText detailFields order
      , summary := Json.null
      , metadata := { saved_at := now, summarized := false } }

/-- `save_orders`: builds one record per listing item, in listing order;
the whole run fails (nothing is written) if any item lacks its
`document_number`.  `detail dn` is the remote detail response for the
document number `dn`. -/
def save_orders : List (List (String × Json)) → (Json → RemoteResponse) →
    String → Option (List OrderRecord)
  | [], _, _ => some []
  | it :: rest, detail, now =>
    match buildRecord detail now it with
    | none => none
    | some r => (save_orders rest detail now).map (fun rs => r :: rs)

/-!
API server (`src/backend/main.py`).
-/

/-- A Python exception relevant to the two endpoints.  `httpException`
models `fastapi.HTTPException`, which is a subclass of `Exception` (but not
of `FileNotFoundError`).  `keyError` models the `KeyError` raised by
`order["data"]["document_number"]` on a record whose listing dictionary
lacks the key. -/
inductive PyExc where
  | fileNotFoundError : PyExc
  | jsonDecodeError : PyExc
  | keyError (key : String) : PyExc
  | httpException (status : Nat) (detail : String) : PyExc

/-- The `str(e)` rendering used in the handlers' f-strings.  For
`HTTPException`, starlette renders `"{status_code}: {detail}"`; the other
renderings are schematic (no claim depends on their exact text). -/
def excStr : PyExc → String
  | .fileNotFoundError => "[Errno 2] No such file or directory: orders.json"
  | .jsonDecodeError => "Expecting value: line 1 column 1 (char 0)"
  | .keyError key => key
  | .httpException status detail => toString status ++ ": " ++ detail

/-- An HTTP response delivered to the client: status code and JSON body. -/
structure Response where
  status : Nat
  body : Json

/-- The response FastAPI produces for a raised `HTTPException`:
the given status and the body `{"detail": <detail>}`. -/
def httpErrorResponse (status : Nat) (detail : String) : Response :=
  ⟨status, Json.obj [("detail", Json.str detail)]⟩

/-- The state of `orders.json` as seen by `get_orders`: missing, present
but not valid JSON, or present with the given parsed content. -/
inductive FileState where
  | missing : FileState
  | invalidJson : FileState
  | json (content : Json) : FileState

/-- The `GET /orders` handler.  `open` raising `FileNotFoundError` is the
only handled exception; a `json.JSONDecodeError` from `json.load`
propagates out of the handler unhandled (modelled as `Except.error`). -/
def get_orders : FileState → Except PyExc Response
  | .missing => .ok ⟨404, Json.obj [("error", Json.str "Orders not found")]⟩
  | .invalidJson => .error .jsonDecodeError
  | .json content => .ok ⟨200, content⟩

/-- Python `==` between a JSON-decoded value and a `str`: true exactly when
the value is that string. -/
def jsonEqStr : Json → String → Bool
  | .str s, t => s == t
  | _, _ => false

/-- The `next((order for order in orders if
order["data"]["document_number"] == document_number), None)` scan: the
index and record of the first match (the index makes it possible to express
the later in-place mutation of the found object as `List.set`), `none` when
no record matches, or the `KeyError` raised on the first scanned record
whose `data` lacks the key. -/
def findOrder : List OrderRecord → String → Except PyExc (Option (Nat × OrderRecord))
  | [], _ => .ok none
  | o :: rest, dn =>
    match jlookup o.data "document_number" with
    | none => .error (.keyError "document_number")
    | some v =>
      if jsonEqStr v dn then .ok (some (0, o))
      else (findOrder rest dn).map (Option.map (fun p => (p.1 + 1, p.2)))

/-- The in-place mutation performed on the found record on success:
`order["summary"] = summary; order["metadata"]["summarized"] = True`. -/
def applySummary (o : OrderRecord) (text : String) : OrderRecord :=
  { o with summary := Json.str text
         , metadata := { o.metadata with summarized := true } }

/-- Outcome of the body of the outer `try` of `summarize_order`: the
returned JSON body or the exception that escaped, the orders list as it
stands afterwards (the found record is mutated in place, so the list the
file write serializes contains the update at the found index), and whether
the external chat-completion call was made. -/
structure CoreOut where
  result : Except PyExc Json
  ordersAfter : List OrderRecord
  calledService : Bool

/-- The body of the outer `try` of the `POST /summarize/{document_number}`
handler, after the file has been read into `orders`.  `service` is the
oracle for the external chat-completion call: `Except.error msg` models the
call raising an exception rendered as `msg`, `Except.ok text` a completion
with content `text`. -/
def summarizeCore (orders : List OrderRecord) (dn : String)
    (service : Except String String) : CoreOut :=
  match findOrder orders dn with
  | .error e => ⟨.error e, orders, false⟩
  | .ok none => ⟨.error (.httpException 404 "Order not found"), orders, false⟩
  | .ok (some (i, o)) =>
    if o.summary.truthy then ⟨.ok o.toJson, orders, false⟩
    else if o.raw_text.truthy then
      match service with
      | .error msg =>
        ⟨.error (.httpException 500 ("Error generating summary: " ++ msg)),
          orders, true⟩
      | .ok text =>
        let o' := applySummary o text
        ⟨.ok o'.toJson, orders.set i o', true⟩
    else
      ⟨.error (.httpException 400 "No raw text available for summarization"),
        orders, false⟩

/-- Full outcome of one `POST /summarize/{document_number}` request: the
HTTP response, the file content afterwards (`none` when the file is still
missing), and whether the external call was made. -/
structure SummarizeOutcome where
  response : Response
  fileAfter : Option (List OrderRecord)
  calledService : Bool

/-- The `POST /summarize/{document_number}` handler.  `file` is the parsed
content of `orders.json` (`none`: the file is missing, so `open` raises
`FileNotFoundError`).  The outer `except FileNotFoundError` turns a missing
file into a 404; every other exception escaping the `try` body — including
the `HTTPException`s raised inside it, since `HTTPException` is a subclass
of `Exception` — is caught by `except Exception as e` and re-raised as a
500 whose detail embeds `str(e)`. -/
def summarize_order (file : Option (List OrderRecord)) (dn : String)
    (service : Except String String) : SummarizeOutcome :=
  match file with
  | none => ⟨httpErrorResponse 404 "Orders file not found", none, false⟩
  | some orders =>
    let core := summarizeCore orders dn service
    match core.result with
    | .ok body => ⟨⟨200, body⟩, some core.ordersAfter, core.calledService⟩
    | .error e =>
      ⟨httpErrorResponse 500 ("Internal server error: " ++ excStr e),
        some core.ordersAfter, core.calledService⟩

/-- The selection the spec's words for raw_text describe when "present" is
read as key-presence.  Modelled from the spec: "the detail payload's
structured full text if present, else the detail payload's rendered body,
else the listing item's abstract, else the empty string". -/
def specRawTextByPresence (details order : List (String × Json)) : Json :=
  match jlookup details "full_text_xml" with
  | some v => v
  | none =>
    match jlookup details "body_html" with
    | some v => v
    | none =>
      match jlookup order "abstract" with
      | some v => v
      | none => Json.str ""

/-!
Concrete inputs used by witnesses and counterexamples.
-/

/-- A record whose `summary` is `null` and whose `raw_text` is the empty
string. -/
def recNoText : OrderRecord :=
  { data := [("document_number", Json.str "ABC")]
  , content := Json.obj []
  , raw_text := Json.str ""
  , summary := Json.null
  , metadata := { saved_at := "2025-01-21T00:00:00", summarized := false } }

/-- A record whose `summary` is the empty string: non-null, yet falsy. -/
def recEmptySummary : OrderRecord :=
  { data := [("document_number", Json.str "EO-1")]
  , content := Json.obj []
  , raw_text := Json.str "Order text"
  , summary := Json.str ""
  , metadata := { saved_at := "2025-01-21T00:00:00", summarized := false } }

/-- A record that already carries a non-empty summary. -/
def recDone : OrderRecord :=
  { data := [("document_number", Json.str "EO-2")]
  , content := Json.obj []
  , raw_text := Json.str "Order text"
  , summary := Json.str "Existing summary"
  , metadata := { saved_at := "2025-01-21T00:00:00", summarized := true } }

/-- A freshly collected record: `raw_text` present, `summary` still null. -/
def recFresh : OrderRecord :=
  { data := [("document_number", Json.str "EO-3")]
  , content := Json.obj []
  , raw_text := Json.str "Order text"
  , summary := Json.null
  , metadata := { saved_at := "2025-01-21T00:00:00", summarized := false } }

/-- A remote listing: pages 1 and 2 succeed with non-empty results, page 3
succeeds with an empty `results` array, every later page is irrelevant. -/
def pagedListing : Nat → ListingResponse := fun p =>
  if p = 1 then ⟨200, some [Json.str "EO-1", Json.str "EO-2"]⟩
  else if p = 2 then ⟨200, some [Json.str "EO-3"]⟩
  else ⟨200, some []⟩

/-- A single listing item as returned by the remote listing endpoint. -/
def itemA : List (String × Json) :=
  [("document_number", Json.str "EO-9"), ("abstract", Json.str "Short abstract")]

/-- A detail oracle whose every response is a 500 failure. -/
def detailDown : Json → RemoteResponse := fun _ =>
  ⟨500, Json.obj [("errors", Json.str "internal")]⟩

/-- The record `save_orders` builds for `itemA` when every detail fetch
fails: empty `content`, `raw_text` taken from the abstract. -/
def recItemA : OrderRecord :=
  { data := itemA
  , content := Json.obj []
  , raw_text := Json.str "Short abstract"
  , summary := Json.null
  , metadata := { saved_at := "t0", summarized := false } }

/-!
Helper lemmas shared by several claims.
-/

/-- A successful scan yields an in-range index whose entry is the found
record. -/
lemma findOrder_getElem {orders : List OrderRecord} {dn : String}
    {i : Nat} {o : OrderRecord}
    (h : findOrder orders dn = .ok (some (i, o))) :
    i < orders.length ∧ orders[i]? = some o := by
  induction orders generalizing i with
  | nil => simp [findOrder] at h
  | cons a rest ih =>
    rw [findOrder] at h
    cases hl : jlookup a.data "document_number" with
    | none => rw [hl] at h; exact absurd h (by simp)
    | some v =>
      rw [hl] at h
      dsimp only at h
      by_cases hv : jsonEqStr v dn
      · rw [if_pos hv] at h
        have h' : 0 = i ∧ a = o := by simpa [Prod.ext_iff] using h
        obtain ⟨h1, h2⟩ := h'
        subst h1; subst h2
        exact ⟨by simp, by simp⟩
      · rw [if_neg hv] at h
        cases hr : findOrder rest dn with
        | error e => rw [hr] at h; exact absurd h (by simp [Except.map])
        | ok res =>
          cases res with
          | none => rw [hr] at h; exact absurd h (by simp [Except.map])
          | some p =>
            rw [hr] at h
            have h' : p.1 + 1 = i ∧ p.2 = o := by
              simpa [Except.map, Prod.ext_iff] using h
            obtain ⟨h1, h2⟩ := h'
            have hr' : findOrder rest dn = .ok (some (p.1, o)) := by
              rw [hr, ← h2]
            obtain ⟨hlt, hget⟩ := ih hr'
            subst h1
            constructor
            · simp only [List.length_cons]; omega
            · simpa using hget

/-- C1: the claim says a `POST /summarize/{document_number}` for a
document number matching no record fails with status 404 and body
`{"detail": "Order not found"}`.  The handler does raise
`HTTPException(404, "Order not found")`, but that exception is caught by
the handler's own `except Exception` clause and re-raised as a 500, so the
client receives status 500 with a wrapped detail: evaluated here on a
one-record collection and the absent document number `"XYZ"`. -/
theorem summarize_absent_document_gives_500 :
    summarize_order (some [recFresh]) "XYZ" (Except.ok "S") =
      ⟨⟨500, Json.obj [("detail",
          Json.str "Internal server error: 404: Order not found")]⟩,
        some [recFresh], false⟩ := rfl

/-- C2: the claim says that for a found record with null summary and empty
`raw_text` the operation fails with status 400 and body
`{"detail": "No raw text available for summarization"}`.  The raised
`HTTPException(400, ...)` is caught by the handler's own
`except Exception` clause and re-raised as a 500: evaluated here on the
record `recNoText` (summary null, raw_text empty) looked up as `"ABC"`. -/
theorem summarize_no_raw_text_gives_500 :
    summarize_order (some [recNoText]) "ABC" (Except.ok "S") =
      ⟨⟨500, Json.obj [("detail",
          Json.str
            "Internal server error: 400: No raw text available for summarization")]⟩,
        some [recNoText], false⟩ := rfl

/-- C8: `GET /orders` returns 404 with body `{"error": "Orders not found"}`
when the orders file does not exist, and 200 with the file's JSON content
verbatim when it does. -/
theorem get_orders_contract :
    get_orders FileState.missing =
      Except.ok ⟨404, Json.obj [("error", Json.str "Orders not found")]⟩ ∧
    ∀ content : Json,
      get_orders (FileState.json content) = Except.ok ⟨200, content⟩ :=
  ⟨rfl, fun _ => rfl⟩

/-- Witness for C8 at a concrete file content. -/
theorem get_orders_contract_witness :
    get_orders (FileState.json (Json.arr [Json.num 1])) =
      Except.ok ⟨200, Json.arr [Json.num 1]⟩ :=
  get_orders_contract.2 (Json.arr [Json.num 1])

/-- C10: when the orders file exists but its content is not valid JSON,
`get_orders` neither produces the 404 error body nor any 200 response: the
decode failure propagates as an unhandled exception, because only
`FileNotFoundError` is caught. -/
theorem get_orders_invalid_json_propagates :
    get_orders FileState.invalidJson = Except.error PyExc.jsonDecodeError ∧
    ∀ r : Response, get_orders FileState.invalidJson ≠ Except.ok r :=
  ⟨rfl, fun _ h => by simp [get_orders] at h⟩

/-- Witness for C10 at a concrete response value. -/
theorem get_orders_invalid_json_propagates_witness :
    get_orders FileState.invalidJson ≠ Except.ok ⟨200, Json.arr []⟩ :=
  get_orders_invalid_json_propagates.2 ⟨200, Json.arr []⟩

/-- C3 counterexample: the claim quantifies over every record whose
`summary` is non-null, but the short-circuit in the handler is the
truthiness test `if order.get("summary")`.  On a record whose summary is
the empty string — non-null, yet falsy — the handler does call the
external service and does rewrite the file. -/
theorem summarize_empty_summary_counterexample :
    recEmptySummary.summary ≠ Json.null ∧
    (summarize_order (some [recEmptySummary]) "EO-1"
        (Except.ok "NEW")).calledService = true ∧
    (summarize_order (some [recEmptySummary]) "EO-1"
        (Except.ok "NEW")).fileAfter = some [applySummary recEmptySummary "NEW"] ∧
    (applySummary recEmptySummary "NEW").summary ≠ recEmptySummary.summary :=
  ⟨by simp [recEmptySummary], rfl, rfl, by simp [applySummary, recEmptySummary]⟩

/-- C3 amended: for every record whose `summary` is truthy (non-null and
non-empty), `POST /summarize/{document_number}` returns the existing
record unchanged, makes no external service call, and leaves the orders
file unmodified. -/
theorem summarize_truthy_summary_short_circuits (orders : List OrderRecord)
    (dn : String) (service : Except String String) (i : Nat) (o : OrderRecord)
    (hfind : findOrder orders dn = .ok (some (i, o)))
    (hsum : o.summary.truthy = true) :
    summarize_order (some orders) dn service =
      ⟨⟨200, o.toJson⟩, some orders, false⟩ := by
  simp [summarize_order, summarizeCore, hfind, hsum]

/-- Witness for C3's amended theorem on a one-record collection whose
record already carries a non-empty summary. -/
theorem summarize_truthy_summary_short_circuits_witness :
    findOrder [recDone] "EO-2" = .ok (some (0, recDone)) ∧
    recDone.summary.truthy = true ∧
    summarize_order (some [recDone]) "EO-2" (Except.ok "S") =
      ⟨⟨200, recDone.toJson⟩, some [recDone], false⟩ :=
  ⟨rfl, rfl,
    summarize_truthy_summary_short_circuits [recDone] "EO-2"
      (Except.ok "S") 0 recDone rfl rfl⟩

/-- C7: when summarization succeeds on a found record with falsy summary
and truthy raw text, the response is a 200 carrying the updated record
(summary set to the returned text, `metadata.summarized` set to true), the
rewritten file holds the updated record at the found index, and every
other index of the file is unchanged. -/
theorem summarize_success_updates_only_target (orders : List OrderRecord)
    (dn text : String) (i : Nat) (o : OrderRecord)
    (hfind : findOrder orders dn = .ok (some (i, o)))
    (hsum : o.summary.truthy = false)
    (hraw : o.raw_text.truthy = true) :
    summarize_order (some orders) dn (Except.ok text) =
      ⟨⟨200, (applySummary o text).toJson⟩,
        some (orders.set i (applySummary o text)), true⟩ ∧
    (applySummary o text).summary = Json.str text ∧
    (applySummary o text).metadata.summarized = true ∧
    (orders.set i (applySummary o text))[i]? = some (applySummary o text) ∧
    ∀ j : Nat, j ≠ i →
      (orders.set i (applySummary o text))[j]? = orders[j]? := by
  obtain ⟨hlt, hget⟩ := findOrder_getElem hfind
  refine ⟨?_, rfl, rfl, List.getElem?_set_self hlt,
    fun j hj => List.getElem?_set_ne (Ne.symm hj)⟩
  simp [summarize_order, summarizeCore, hfind, hsum, hraw]

/-- Witness for C7 on a two-record collection: the second record is
summarized, the first is untouched. -/
theorem summarize_success_updates_only_target_witness :
    findOrder [recDone, recFresh] "EO-3" = .ok (some (1, recFresh)) ∧
    recFresh.summary.truthy = false ∧
    recFresh.raw_text.truthy = true ∧
    summarize_order (some [recDone, recFresh]) "EO-3" (Except.ok "A summary") =
      ⟨⟨200, (applySummary recFresh "A summary").toJson⟩,
        some [recDone, applySummary recFresh "A summary"], true⟩ :=
  ⟨rfl, rfl, rfl,
    (summarize_success_updates_only_target [recDone, recFresh] "EO-3"
      "A summary" 1 recFresh rfl rfl rfl).1⟩

/-- Running the pagination loop from page `page` with enough fuel, when no
page before `N` stops the loop and page `N` does, yields the accumulator
followed by the concatenated results of pages `page, ..., N - 1`. -/
lemma fetchAllOrdersAux_run (resp : Nat → ListingResponse) (N : Nat)
    (hstop : stopsAt (resp N) = true) :
    ∀ (fuel page : Nat) (acc : List Json), page ≤ N → N - page < fuel →
      (∀ p, page ≤ p → p < N → stopsAt (resp p) = false) →
      fetchAllOrdersAux resp fuel page acc =
        some (acc ++ ((List.range' page (N - page)).map
          (fun p => (resp p).results.getD [])).flatten) := by
  intro fuel
  induction fuel with
  | zero => intro page acc h1 h2 h3; omega
  | succ fuel ih =>
    intro page acc h1 h2 h3
    rcases Nat.lt_or_ge page N with hlt | hge
    · have hns : stopsAt (resp page) = false := h3 page le_rfl hlt
      have hrec := ih (page + 1) (acc ++ (resp page).results.getD [])
        (by omega) (by omega) (fun p hp1 hp2 => h3 p (by omega) hp2)
      have hNp : N - page = (N - (page + 1)) + 1 := by omega
      rw [fetchAllOrdersAux]
      simp only [hns, Bool.false_eq_true, if_false]
      rw [hrec, hNp, List.range'_succ]
      simp [List.append_assoc]
    · have hpage : page = N := by omega
      subst hpage
      rw [fetchAllOrdersAux]
      simp only [hstop, if_true]
      simp [Nat.sub_self]

/-- C4: when pages `1, ..., N - 1` of the remote listing respond 200 with
truthy results and page `N` is the first page with a non-success status or
falsy results, `fetch_all_orders` (run with enough fuel for the loop to
reach its break) returns the concatenation of the results of pages
`1, ..., N - 1` in ascending page order; the terminating page contributes
nothing. -/
theorem fetch_all_orders_concat (resp : Nat → ListingResponse) (N fuel : Nat)
    (h1 : 1 ≤ N) (h2 : N ≤ fuel)
    (hrun : ∀ p, 1 ≤ p → p < N → stopsAt (resp p) = false)
    (hstop : stopsAt (resp N) = true) :
    fetch_all_orders resp fuel =
      some (((List.range' 1 (N - 1)).map
        (fun p => (resp p).results.getD [])).flatten) := by
  have h := fetchAllOrdersAux_run resp N hstop fuel 1 []
    h1 (by omega) (fun p hp1 hp2 => hrun p hp1 hp2)
  simpa [fetch_all_orders] using h

/-- Witness for C4: pages 1 and 2 of `pagedListing` are non-empty, page 3
is the first empty page, and the loop returns their concatenation. -/
theorem fetch_all_orders_concat_witness :
    stopsAt (pagedListing 3) = true ∧
    fetch_all_orders pagedListing 3 =
      some [Json.str "EO-1", Json.str "EO-2", Json.str "EO-3"] := by
  refine ⟨rfl, ?_⟩
  have h := fetch_all_orders_concat pagedListing 3 3 (by omega) (by omega)
    (fun p hp1 hp2 => by interval_cases p <;> rfl) rfl
  simpa [pagedListing] using h

/-- C5 counterexample: with `full_text_xml` present as the empty string
and `body_html` present as `"BODY"`, the code's truthiness-based `or`
chain picks `"BODY"`, while the claim's presence-based priority picks the
structured full text (the empty string). -/
theorem chooseRawText_presence_counterexample :
    chooseRawText
        [("full_text_xml", Json.str ""), ("body_html", Json.str "BODY")]
        [("abstract", Json.str "ABS")] = Json.str "BODY" ∧
    specRawTextByPresence
        [("full_text_xml", Json.str ""), ("body_html", Json.str "BODY")]
        [("abstract", Json.str "ABS")] = Json.str "" ∧
    Json.str "BODY" ≠ Json.str "" :=
  ⟨rfl, rfl, by simp⟩

/-- C5 amended: `raw_text` is chosen by strict fallback priority among the
truthy values: the detail payload's `full_text_xml` when truthy, else its
`body_html` when truthy, else the listing item's `abstract` value when the
key is present (the empty string when it is absent). -/
theorem chooseRawText_truthy_priority (details order : List (String × Json)) :
    ((jget details "full_text_xml" Json.null).truthy = true →
      chooseRawText details order = jget details "full_text_xml" Json.null) ∧
    ((jget details "full_text_xml" Json.null).truthy = false →
      (jget details "body_html" Json.null).truthy = true →
      chooseRawText details order = jget details "body_html" Json.null) ∧
    ((jget details "full_text_xml" Json.null).truthy = false →
      (jget details "body_html" Json.null).truthy = false →
      chooseRawText details order = jget order "abstract" (Json.str "")) := by
  unfold chooseRawText pyOr
  refine ⟨fun hf => ?_, fun hf hb => ?_, fun hf hb => ?_⟩
  · simp only [hf, if_true]
  · simp only [hf, hb, Bool.false_eq_true, if_false, if_true]
  · simp only [hf, hb, Bool.false_eq_true, if_false]

/-- Witness for C5's amended theorem: a truthy `full_text_xml` wins. -/
theorem chooseRawText_truthy_priority_witness :
    (jget [("full_text_xml", Json.str "FULL")] "full_text_xml"
      Json.null).truthy = true ∧
    chooseRawText [("full_text_xml", Json.str "FULL")] [] =
      jget [("full_text_xml", Json.str "FULL")] "full_text_xml" Json.null :=
  ⟨rfl,
    (chooseRawText_truthy_priority [("full_text_xml", Json.str "FULL")] []).1 rfl⟩

/-- A record successfully built for one listing item keeps the item as its
`data`, stores the (possibly degraded) detail payload as `content`, and
starts with a null summary and a false `summarized` flag. -/
lemma buildRecord_fields {detail : Json → RemoteResponse} {now : String}
    {it : List (String × Json)} {r : OrderRecord}
    (h : buildRecord detail now it = some r) :
    r.data = it ∧
    r.content = fetch_details (detail (jget it "document_number" Json.null)) ∧
    r.summary = Json.null ∧
    r.metadata = { saved_at := now, summarized := false } := by
  unfold buildRecord at h
  cases hl : jlookup it "document_number" with
  | none => rw [hl] at h; exact absurd h (by simp)
  | some v =>
    rw [hl] at h
    dsimp only at h
    injection h with h'
    subst h'
    exact ⟨rfl, rfl, rfl, rfl⟩

/-- A successful `save_orders` run produces exactly one record per listing
item, positionally: the record at index `i` is the one `buildRecord`
yields for the item at index `i`. -/
lemma save_orders_getElem {items : List (List (String × Json))}
    {detail : Json → RemoteResponse} {now : String} {recs : List OrderRecord}
    (h : save_orders items detail now = some recs) :
    recs.length = items.length ∧
    ∀ i : Nat, recs[i]? = (items[i]?).bind (buildRecord detail now) := by
  induction items generalizing recs with
  | nil =>
    obtain rfl : recs = [] := by
      have h' : (some [] : Option (List OrderRecord)) = some recs := h.symm ▸ rfl
      simpa using h'.symm
    exact ⟨rfl, fun i => by simp⟩
  | cons it rest ih =>
    rw [save_orders] at h
    cases hb : buildRecord detail now it with
    | none => rw [hb] at h; exact absurd h (by simp)
    | some r =>
      rw [hb] at h
      dsimp only at h
      cases hs : save_orders rest detail now with
      | none => rw [hs] at h; exact absurd h (by simp [Option.map])
      | some rs =>
        rw [hs] at h
        obtain rfl : recs = r :: rs := by
          simpa [Option.map_some] using h.symm
        obtain ⟨hlen, hget⟩ := ih hs
        refine ⟨by simp [hlen], fun i => ?_⟩
        cases i with
        | zero => simp [hb]
        | succ n => simpa using hget n

/-- C6: a non-success detail response makes `fetch_details` return the
empty object rather than raise, and a `save_orders` run whose detail fetch
for the item at index `i` is non-success still includes that item, with
`content` equal to the empty object. -/
theorem fetch_details_degrades_not_raises (resp : RemoteResponse)
    (items : List (List (String × Json))) (detail : Json → RemoteResponse)
    (now : String) (recs : List OrderRecord) (i : Nat)
    (it : List (String × Json))
    (hresp : resp.status ≠ 200)
    (hsave : save_orders items detail now = some recs)
    (hit : items[i]? = some it)
    (hdet : (detail (jget it "document_number" Json.null)).status ≠ 200) :
    fetch_details resp = Json.obj [] ∧
    ∃ r : OrderRecord, recs[i]? = some r ∧ r.data = it ∧
      r.content = Json.obj [] := by
  obtain ⟨hlen, hget⟩ := save_orders_getElem hsave
  have hi := hget i
  rw [hit] at hi
  dsimp only [Option.bind] at hi
  cases hb : buildRecord detail now it with
  | none =>
    rw [hb] at hi
    have hilt : i < items.length := by
      by_contra hc
      push_neg at hc
      rw [List.getElem?_eq_none hc] at hit
      cases hit
    rw [List.getElem?_eq_getElem (by omega : i < recs.length)] at hi
    cases hi
  | some r =>
    rw [hb] at hi
    obtain ⟨hdata, hcontent, _, _⟩ := buildRecord_fields hb
    refine ⟨by simp [fetch_details, hresp], r, hi, hdata, ?_⟩
    rw [hcontent]
    simp [fetch_details, hdet]

/-- Witness for C6: one listing item, every detail fetch failing with a
500; the run still produces the record, with empty `content`. -/
theorem fetch_details_degrades_not_raises_witness :
    fetch_details ⟨500, Json.obj []⟩ = Json.obj [] ∧
    ∃ r : OrderRecord, ([recItemA] : List OrderRecord)[0]? = some r ∧
      r.data = itemA ∧ r.content = Json.obj [] :=
  fetch_details_degrades_not_raises ⟨500, Json.obj []⟩ [itemA] detailDown "t0"
    [recItemA] 0 itemA (by decide) rfl rfl (by decide)

/-- C9: every record written by a successful `save_orders` run has a null
`summary` and a false `metadata.summarized` flag. -/
theorem save_orders_fresh_records (items : List (List (String × Json)))
    (detail : Json → RemoteResponse) (now : String) (recs : List OrderRecord)
    (h : save_orders items detail now = some recs) :
    ∀ r ∈ recs, r.summary = Json.null ∧ r.metadata.summarized = false := by
  induction items generalizing recs with
  | nil =>
    obtain rfl : recs = [] := by
      have h' : (some [] : Option (List OrderRecord)) = some recs := h.symm ▸ rfl
      simpa using h'.symm
    simp
  | cons it rest ih =>
    rw [save_orders] at h
    cases hb : buildRecord detail now it with
    | none => rw [hb] at h; exact absurd h (by simp)
    | some r0 =>
      rw [hb] at h
      dsimp only at h
      cases hs : save_orders rest detail now with
      | none => rw [hs] at h; exact absurd h (by simp [Option.map])
      | some rs =>
        rw [hs] at h
        obtain rfl : recs = r0 :: rs := by
          simpa [Option.map_some] using h.symm
        intro r hr
        rcases List.mem_cons.mp hr with rfl | hmem
        · obtain ⟨_, _, hsum, hmeta⟩ := buildRecord_fields hb
          exact ⟨hsum, by rw [hmeta]⟩
        · exact ih rs hs r hmem

/-- Witness for C9 on a concrete one-item run. -/
theorem save_orders_fresh_records_witness :
    save_orders [itemA] detailDown "t0" = some [recItemA] ∧
    (recItemA.summary = Json.null ∧ recItemA.metadata.summarized = false) :=
  ⟨rfl,
    save_orders_fresh_records [itemA] detailDown "t0" [recItemA] rfl
      recItemA (by simp)⟩
